import Mathlib

/-!
Shallow embedding of the strategy decision engine of
`docker-exchangebot/exchangebots/strategies/liquidity_wall.py`
(class `LiquiditySellBuyWalls`).

Modelling choices:
* Python floats are modelled as exact rationals (`ℚ`).
* A market identifier "QUOTE:BASE" is modelled directly as the pair
  `(quote, base)` produced by `market.split(separator)`.
* Python dictionaries are association lists `List (String × _)`;
  `k in d` is `memA`, `d[k]` is `lookupA` (a missing key, which raises
  `KeyError` in Python, is `none`), and `d[k] = v` is `dictInsert`
  (overwrite in place, else append — CPython insertion order).
* Functions whose Python original can raise (KeyError, missing
  settlement price, unbound `base_price`) return `Option _`: `none`
  models the raised exception.
* Calls into the exchange (`self.dex.sell`, `buy`, `cancel`, `borrow`,
  `adjust_debt`) are modelled as emitted `Cmd` values, in program order.
* `self.dex.returnBalances()` re-fetched inside `place_orders` is the
  same snapshot `balances` fetched by `update_data` (the external world
  is fixed for the duration of a tick in this model).
-/

namespace LiquidityBots

/-- "QUOTE:BASE" split at the market separator: `(quote, base)`. -/
abbrev Market := String × String

inductive OrderType where
  | buy
  | sell
deriving DecidableEq, Repr

/-- One entry of `self.open_orders[market]`. -/
structure Order where
  orderNumber : String
  type : OrderType
  rate : ℚ
  total : ℚ
deriving DecidableEq, Repr

/-- One entry of `self.debt_positions`, keyed by synthetic-asset symbol. -/
structure DebtPosition where
  debt : ℚ
  collateral : ℚ
  collateral_asset : String
deriving DecidableEq, Repr

/-- The `target_price` setting: a number, or one of the symbolic strings
"settlement_price" / "feed" / "price_feed" (any other string leaves
`base_price` unbound in the Python and is outside the model). -/
inductive TargetPrice where
  | numeric (q : ℚ)
  | feed
deriving DecidableEq, Repr

/-- Association-list lookup: Python `d[k]` (`none` = `KeyError`). -/
def lookupA {α : Type} (l : List (String × α)) (k : String) : Option α :=
  (l.find? (fun p => p.1 == k)).map Prod.snd

/-- Python `k in d`. -/
def memA {α : Type} (l : List (String × α)) (k : String) : Bool :=
  (lookupA l k).isSome

/-- Lookup in a market-keyed dictionary. -/
def lookupM {α : Type} (l : List (Market × α)) (k : Market) : Option α :=
  (l.find? (fun p => p.1 == k)).map Prod.snd

/-- Python `d[k] = v`: overwrite in place when the key exists, else append. -/
def dictInsert {α : Type} (l : List (String × α)) (k : String) (v : α) :
    List (String × α) :=
  if memA l k then l.map (fun p => if p.1 == k then (k, v) else p)
  else l ++ [(k, v)]

/-- The validated settings produced by `init` (the raw dict after default
filling). `allowed_spread_percentage` and `calculate_bts_total` are read
elsewhere in the class but neither required nor defaulted by `init`, so
they stay optional. -/
structure Settings where
  markets : List Market
  target_price : TargetPrice
  target_price_offset_percentage : ℚ
  spread_percentage : ℚ
  allowed_spread_percentage : Option ℚ
  volume_percentage : ℚ
  symmetric_sides : Bool
  expiration : ℚ
  skip_blocks : Int
  ratio : ℚ
  borrow_percentages : List (String × ℚ)
  minimum_amounts : List (String × ℚ)
  minimum_change_percentage : ℚ
  calculate_bts_total : Option String
deriving DecidableEq, Repr

/-- The raw configuration dict handed to `init`: each key possibly absent. -/
structure RawSettings where
  markets : List Market
  target_price : Option TargetPrice
  target_price_offset_percentage : Option ℚ
  spread_percentage : Option ℚ
  allowed_spread_percentage : Option ℚ
  volume_percentage : Option ℚ
  symmetric_sides : Option Bool
  expiration : Option ℚ
  skip_blocks : Option Int
  ratio : Option ℚ
  borrow_percentages : Option (List (String × ℚ))
  minimum_amounts : Option (List (String × ℚ))
  minimum_change_percentage : Option ℚ
  calculate_bts_total : Option String
deriving DecidableEq, Repr

/-- `init` (lines 55-89): the sequence of default fills and
`MissingSettingsException` raises, in source order. The market / asset
validation against RPC data (lines 91-107) and the bootstrap
(lines 109-117) are external to the settings contract modelled here. -/
def init (r : RawSettings) : Except String Settings :=
  let offset := r.target_price_offset_percentage.getD 0
  match r.target_price with
  | none => Except.error "target_price"
  | some target_price =>
  match r.spread_percentage with
  | none => Except.error "spread_percentage"
  | some spread =>
  match r.volume_percentage with
  | none => Except.error "volume_percentage"
  | some volume =>
  let symmetric := r.symmetric_sides.getD true
  let expiration := r.expiration.getD (60 * 60 * 24)
  let skip := r.skip_blocks.getD 20
  match r.ratio with
  | none => Except.error "ratio"
  | some ratio =>
  match r.borrow_percentages with
  | none => Except.error "borrow_percentages"
  | some bp =>
  match r.minimum_amounts with
  | none => Except.error "minimum_amounts"
  | some ma =>
  match r.minimum_change_percentage with
  | none => Except.error "minimum_change_percentage"
  | some mcp =>
  Except.ok
    { markets := r.markets
      target_price := target_price
      target_price_offset_percentage := offset
      spread_percentage := spread
      allowed_spread_percentage := r.allowed_spread_percentage
      volume_percentage := volume
      symmetric_sides := symmetric
      expiration := expiration
      skip_blocks := skip
      ratio := ratio
      borrow_percentages := bp
      minimum_amounts := ma
      minimum_change_percentage := mcp
      calculate_bts_total := r.calculate_bts_total }

/-- The four snapshots fetched by `update_data` (lines 119-123). The
ticker keeps only the `settlement_price` field; a market absent from
`ticker` models a ticker entry without a settlement price. -/
structure Snapshot where
  ticker : List (Market × ℚ)
  open_orders : List (Market × List Order)
  debt_positions : List (String × DebtPosition)
  balances : List (String × ℚ)
deriving DecidableEq, Repr

/-- A command issued to the exchange collaborator. -/
inductive Cmd where
  | sell (market : Market) (price : ℚ) (amount : ℚ)
  | buy (market : Market) (price : ℚ) (amount : ℚ)
  | cancel (orderNumber : String)
  | borrow (amount : ℚ) (symbol : String) (ratio : ℚ)
  | adjustDebt (delta : ℚ) (symbol : String) (ratio : ℚ)
deriving DecidableEq, Repr

def Cmd.isCancel : Cmd → Bool
  | .cancel _ => true
  | _ => false

def Cmd.isOrderPlacement : Cmd → Bool
  | .sell _ _ _ => true
  | .buy _ _ _ => true
  | _ => false

def Cmd.isBorrow : Cmd → Bool
  | .borrow _ _ _ => true
  | _ => false

/-- The size of an order-placement command. -/
def Cmd.orderAmount : Cmd → Option ℚ
  | .sell _ _ a => some a
  | .buy _ _ a => some a
  | _ => none

/-- Line 178 / 184: `base_price = p * (1 + target_price_offset_percentage / 100)`. -/
def base_price_of (p offset : ℚ) : ℚ :=
  p * (1 + offset / 100)

/-- Line 188: `buy_price = base_price * (1.0 - spread_percentage / 200)`. -/
def buy_price_of (base spread : ℚ) : ℚ :=
  base * (1 - spread / 200)

/-- Line 189: `sell_price = base_price * (1.0 + spread_percentage / 200)`. -/
def sell_price_of (base spread : ℚ) : ℚ :=
  base * (1 + spread / 200)

/-- Lines 177-186: resolve `target_price` to `base_price` for a market.
The "feed" branch raises when the pair has no settlement price. -/
def resolve_base_price (s : Settings) (snap : Snapshot) (market : Market) :
    Option ℚ :=
  match s.target_price with
  | .numeric q => some (base_price_of q s.target_price_offset_percentage)
  | .feed =>
      (lookupM snap.ticker market).map
        (fun sp => base_price_of sp s.target_price_offset_percentage)

/-- Lines 167-173: `asset_ids`, base appended before quote, per market. -/
def asset_ids (s : Settings) : List String :=
  s.markets.foldl (fun acc m => acc ++ [m.2, m.1]) []

/-- Lines 174-176: the per-asset allocation
`balances[a] * volume_percentage / 100 / asset_ids.count(a)`, defined for
assets that occur in `asset_ids` (the unique ones) and in `balances`.
`a in amounts` is `(amounts? ..).isSome`. -/
def amounts? (s : Settings) (snap : Snapshot) (a : String) : Option ℚ :=
  if (asset_ids s).contains a then
    (lookupA snap.balances a).map
      (fun b => b * s.volume_percentage / 100 / ((asset_ids s).count a : ℚ))
  else none

/-- Lines 192-200: the sell side of `place_orders`. The quote asset is
`market.1`, the base asset `market.2`; the minimum-size gate reads
`minimum_amounts[quote]` (`none` = `KeyError`). -/
def sell_side (s : Settings) (snap : Snapshot) (market : Market)
    (only_sell only_buy : Bool) (buy_price sell_price : ℚ) : Option (List Cmd) :=
  match amounts? s snap market.1 with
  | some aq =>
      if !only_buy then
        let amount :=
          if s.symmetric_sides && !only_sell then
            match amounts? s snap market.2 with
            | some ab => min aq (ab / buy_price)
            | none => aq
          else aq
        match lookupA s.minimum_amounts market.1 with
        | some mq =>
            some (if mq ≤ amount then [Cmd.sell market sell_price amount] else [])
        | none => none
      else some []
  | none => some []

/-- Lines 201-209: the buy side of `place_orders`. The minimum-size gate
also reads `minimum_amounts[quote]`, i.e. `minimum_amounts[market.1]`. -/
def buy_side (s : Settings) (snap : Snapshot) (market : Market)
    (only_sell only_buy : Bool) (buy_price : ℚ) : Option (List Cmd) :=
  match amounts? s snap market.2 with
  | some ab =>
      if !only_sell then
        let amount :=
          if s.symmetric_sides && !only_buy then
            match amounts? s snap market.1 with
            | some aq => min aq (ab / buy_price)
            | none => ab / buy_price
          else ab / buy_price
        match lookupA s.minimum_amounts market.1 with
        | some mq =>
            some (if mq ≤ amount then [Cmd.buy market buy_price amount] else [])
        | none => none
      else some []
  | none => some []

/-- Lines 163-209 of `place_orders`, the branch for one given market
(the `market == "all"` dispatch simply maps this over `settings["markets"]`).
Emits the `sell` / `buy` commands in program order. -/
def place_orders (s : Settings) (snap : Snapshot) (market : Market)
    (only_sell only_buy : Bool) : Option (List Cmd) := do
  let bp ← resolve_base_price s snap market
  let buy_price := buy_price_of bp s.spread_percentage
  let sell_price := sell_price_of bp s.spread_percentage
  let sellCmds ← sell_side s snap market only_sell only_buy buy_price sell_price
  let buyCmds ← buy_side s snap market only_sell only_buy buy_price
  return sellCmds ++ buyCmds

/-- Lines 214-229: cancel every open order of the market (the per-order
try/except only swallows collaborator errors, which the model has none of). -/
def cancel_orders (snap : Snapshot) (market : Market) : Option (List Cmd) :=
  (lookupM snap.open_orders market).map
    (fun orders => orders.map (fun o => Cmd.cancel o.orderNumber))

/-- Line 268: collateral summed over positions whose collateral asset is BTS. -/
def bts_total_collateral (snap : Snapshot) : ℚ :=
  ((snap.debt_positions.filter
      (fun p => p.2.collateral_asset == "BTS")).map
    (fun p => p.2.collateral)).sum

/-- Lines 269-271: every open order across all markets, in dict order. -/
def order_list (snap : Snapshot) : List Order :=
  snap.open_orders.foldl (fun acc p => acc ++ p.2) []

/-- Line 272: total committed to outstanding buy orders. -/
def bts_on_orderbook (snap : Snapshot) : ℚ :=
  (((order_list snap).filter (fun o => o.type == OrderType.buy)).map
    (fun o => o.total)).sum

/-- Lines 265-280, `get_total_bts(self.debt_positions)` as called by
`get_debt_amounts`. Python passes the debt-position dict as
`calculation_type`; an empty dict is falsy, so the
`settings['calculate_bts_total']` key is read (KeyError when absent).
The `calculation_type == "worth"` branch assigns `total_bts = total_bts`
and is a no-op. -/
def get_total_bts (s : Settings) (snap : Snapshot) : Option ℚ := do
  let _ ←
    if snap.debt_positions.isEmpty then s.calculate_bts_total.map (fun _ => ())
    else some ()
  let bts ← lookupA snap.balances "BTS"
  return bts_total_collateral snap + bts + bts_on_orderbook snap

/-- Line 261: one iteration of the `get_debt_amounts` loop:
`quote_amounts[quote] = (total_bts * (borrow_percentages[quote] / 100))
/ ticker[m].settlement_price`. -/
def debt_step (s : Settings) (snap : Snapshot) (total_bts : ℚ)
    (qa : List (String × ℚ)) (m : Market) : Option (List (String × ℚ)) := do
  let pct ← lookupA s.borrow_percentages m.1
  let sp ← lookupM snap.ticker m
  return dictInsert qa m.1 (total_bts * (pct / 100) / sp)

/-- Lines 256-263: per-quote desired debt, accumulated into a dict in
market order. -/
def get_debt_amounts (s : Settings) (snap : Snapshot) :
    Option (List (String × ℚ)) := do
  let total_bts ← get_total_bts s snap
  s.markets.foldlM (debt_step s snap total_bts) []

/-- Lines 231-236: one borrow per computed allocation, at the configured ratio. -/
def place_initial_debt_positions (s : Settings) (snap : Snapshot) :
    Option (List Cmd) := do
  let da ← get_debt_amounts s snap
  return da.map (fun p => Cmd.borrow p.2 p.1 s.ratio)

/-- Lines 238-250: `update_debt_positions`. Note the literal `3` on
line 242: the adjust loop runs only when exactly three positions exist,
whatever the number of configured markets. -/
def update_debt_positions (s : Settings) (snap : Snapshot) :
    Option (List Cmd) := do
  let debt_amounts ← get_debt_amounts s snap
  if snap.debt_positions.length = 0 then
    place_initial_debt_positions s snap
  else if snap.debt_positions.length = 3 then
    debt_amounts.foldlM
      (fun acc p => do
        let pos ← lookupA snap.debt_positions p.1
        let change_percentage := |p.2 / pos.debt - 1| * 100
        if s.minimum_change_percentage ≤ change_percentage then
          return acc ++ [Cmd.adjustDebt (p.2 - pos.debt) p.1 s.ratio]
        else return acc)
      []
  else
    return []

/-- Line 145, the condition on one order: `order_feed_spread` is at most
`allowed_spread_percentage / 2` or at least
`(allowed_spread_percentage + spread_percentage) / 2`. -/
def trigger (asp spread : ℚ) (o : Order) (sp : ℚ) : Bool :=
  let order_feed_spread := |(o.rate - sp) / sp * 100|
  decide (order_feed_spread ≤ asp / 2) ||
    decide ((asp + spread) / 2 ≤ order_feed_spread)

/-- Lines 149-155: the debt-position check at the end of
`check_and_replace`, appended after the order commands `pre`. -/
def debt_check (s : Settings) (snap : Snapshot) (market : Market)
    (pre : List Cmd) : Option (List Cmd × Bool) :=
  if memA snap.debt_positions market.1 then some (pre, false)
  else do
    let da ← get_debt_amounts s snap
    let amount ← lookupA da market.1
    some (pre ++ [Cmd.borrow amount market.1 s.ratio], false)

/-- Lines 133-155: `check_and_replace`. The Bool is the Python return
value (`true` exactly when orders were cancelled and re-placed). -/
def check_and_replace (s : Settings) (snap : Snapshot) (market : Market) :
    Option (List Cmd × Bool) := do
  match lookupM snap.open_orders market with
  | some orders => do
      let c0 ←
        if orders.length = 0 then place_orders s snap market false false
        else some []
      let c1 ←
        if h : orders.length = 1 then
          match orders.head (by intro he; rw [he] at h; simp at h) |>.type with
          | OrderType.sell => place_orders s snap market false true
          | OrderType.buy => place_orders s snap market true false
        else some []
      match orders with
      | [] => debt_check s snap market (c0 ++ c1)
      | _ :: _ => do
          let sp ← lookupM snap.ticker market
          let asp ← s.allowed_spread_percentage
          match orders.find? (fun o => trigger asp s.spread_percentage o sp) with
          | some _ => do
              let cc ← cancel_orders snap market
              let pc ← place_orders s snap market false false
              some (c0 ++ c1 ++ cc ++ pc, true)
          | none => debt_check s snap market (c0 ++ c1)
  | none => debt_check s snap market []

/-- The engine state surviving across ticks: the block counter (class
attribute, line 50, starts at -1) and the snapshots last fetched by
`update_data`. -/
structure BotState where
  block_counter : Int
  snap : Snapshot
deriving DecidableEq, Repr

def initialState (snap : Snapshot) : BotState :=
  { block_counter := -1, snap := snap }

/-- Lines 125-131: `tick`. `fresh` is what `update_data` would fetch this
tick; on an active tick the snapshots are refreshed and every configured
market reconciled, in order; otherwise only the counter advances. -/
def tick (s : Settings) (fresh : Snapshot) (st : BotState) :
    Option (BotState × List Cmd) :=
  let c := st.block_counter + 1
  if c % s.skip_blocks = 0 then do
    let cmds ←
      s.markets.foldlM
        (fun acc m => do
          let r ← check_and_replace s fresh m
          return acc ++ r.1)
        []
    some ({ block_counter := c, snap := fresh }, cmds)
  else
    some ({ st with block_counter := c }, [])

/-! ### Concrete fixtures used by witnesses and counterexamples -/

/-- The market "USD:BTS" of the docstring example. -/
def m0 : Market := ("USD", "BTS")

/-- A validated configuration: one market USD:BTS, numeric target price 2,
5% spread, 2.5% allowed spread, 10% volume, symmetric sides. -/
def cSettings : Settings :=
  { markets := [m0]
    target_price := TargetPrice.numeric 2
    target_price_offset_percentage := 0
    spread_percentage := 5
    allowed_spread_percentage := some (5/2)
    volume_percentage := 10
    symmetric_sides := true
    expiration := 86400
    skip_blocks := 20
    ratio := 5/2
    borrow_percentages := [("USD", 30)]
    minimum_amounts := [("USD", 1/10)]
    minimum_change_percentage := 10
    calculate_bts_total := none }

/-- Two-sided snapshot: a sell at 2.05 and a buy at 1.95 around a
settlement price of 2, both 2.5% from the feed (strictly between the
1.25 and 3.75 thresholds). -/
def cSnapC1 : Snapshot :=
  { ticker := [(m0, 2)]
    open_orders :=
      [(m0, [⟨"o1", OrderType.sell, 41/20, 10⟩, ⟨"o2", OrderType.buy, 39/20, 10⟩])]
    debt_positions := [("USD", ⟨100, 300, "BTS"⟩)]
    balances := [("USD", 100), ("BTS", 1000)] }

/-- One configured market, one open debt position (USD), drift 50%. -/
def cSnapC3 : Snapshot :=
  { ticker := [(m0, 2)]
    open_orders := []
    debt_positions := [("USD", ⟨100, 300, "BTS"⟩)]
    balances := [("USD", 100), ("BTS", 700)] }

/-- The market has an (empty) open-order entry and its quote asset USD has
no debt position; some other symbol does. -/
def cSnapC4 : Snapshot :=
  { ticker := [(m0, 2)]
    open_orders := [(m0, [])]
    debt_positions := [("EUR", ⟨50, 150, "BTS"⟩)]
    balances := [("USD", 100), ("BTS", 1000)] }

/-- One-sided state: a single sell order 50% away from the feed. -/
def cSnapC6 : Snapshot :=
  { ticker := [(m0, 2)]
    open_orders := [(m0, [⟨"o1", OrderType.sell, 3, 30⟩])]
    debt_positions := [("USD", ⟨100, 300, "BTS"⟩)]
    balances := [("USD", 100), ("BTS", 1000)] }

/-- One-sided state: a single sell order 2.5% away from the feed
(strictly between the thresholds). -/
def cSnapC6b : Snapshot :=
  { ticker := [(m0, 2)]
    open_orders := [(m0, [⟨"o1", OrderType.sell, 41/20, 10⟩])]
    debt_positions := [("USD", ⟨100, 300, "BTS"⟩)]
    balances := [("USD", 100), ("BTS", 1000)] }

/-- Empty debt-position snapshot (bootstrap situation). -/
def cSnapC10 : Snapshot :=
  { ticker := [(m0, 2)]
    open_orders := []
    debt_positions := []
    balances := [("BTS", 1000)] }

/-- A raw configuration carrying every required key. -/
def rAll : RawSettings :=
  { markets := [m0]
    target_price := some (TargetPrice.numeric 2)
    target_price_offset_percentage := none
    spread_percentage := some 5
    allowed_spread_percentage := some (5/2)
    volume_percentage := some 10
    symmetric_sides := none
    expiration := none
    skip_blocks := none
    ratio := some (5/2)
    borrow_percentages := some [("USD", 30)]
    minimum_amounts := some [("USD", 1/10)]
    minimum_change_percentage := some 10
    calculate_bts_total := none }

/-- The same raw configuration with `target_price` removed. -/
def rMissing : RawSettings :=
  { rAll with target_price := none }

/-- All seven required configuration keys are present. -/
def requiredPresent (r : RawSettings) : Bool :=
  r.target_price.isSome && r.spread_percentage.isSome && r.volume_percentage.isSome
    && r.ratio.isSome && r.borrow_percentages.isSome && r.minimum_amounts.isSome
    && r.minimum_change_percentage.isSome

/-- `k` names one of the seven required keys and that key is absent. -/
def requiredKeyMissing (r : RawSettings) (k : String) : Bool :=
  (k == "target_price" && r.target_price.isNone)
    || (k == "spread_percentage" && r.spread_percentage.isNone)
    || (k == "volume_percentage" && r.volume_percentage.isNone)
    || (k == "ratio" && r.ratio.isNone)
    || (k == "borrow_percentages" && r.borrow_percentages.isNone)
    || (k == "minimum_amounts" && r.minimum_amounts.isNone)
    || (k == "minimum_change_percentage" && r.minimum_change_percentage.isNone)

/-! ### Theorems -/

/-- C2 counterexample: the claim quantifies over every numeric
`target_price`, but with `target_price = 0` (offset 5, spread 5) the
spread is positive while `buy_price = base_price = 0`, so
`buy_price < base_price < sell_price` fails. -/
theorem C2_counterexample :
    (0:ℚ) < 5 ∧ ¬ buy_price_of (base_price_of 0 5) 5 < base_price_of 0 5 := by
  norm_num [base_price_of, buy_price_of]

/-- C2 (amended): the Pricing Engine computes
`base_price = target_price * (1 + offset/100)`,
`buy_price = base_price * (1 - spread/200)` and
`sell_price = base_price * (1 + spread/200)`;
`buy_price < base_price < sell_price` whenever `spread_percentage > 0`
and `base_price > 0`; all three coincide when `spread_percentage = 0`;
and target 100 with offset 5 yields base price exactly 105. -/
theorem C2_pricing (t off spread : ℚ) :
    base_price_of 100 5 = 105
    ∧ (0 < spread → 0 < base_price_of t off →
        buy_price_of (base_price_of t off) spread < base_price_of t off
        ∧ base_price_of t off < sell_price_of (base_price_of t off) spread)
    ∧ (spread = 0 →
        buy_price_of (base_price_of t off) spread = base_price_of t off
        ∧ sell_price_of (base_price_of t off) spread = base_price_of t off) := by
  refine ⟨by norm_num [base_price_of], fun hs hb => ⟨?_, ?_⟩,
    fun hs => by simp [hs, buy_price_of, sell_price_of]⟩
  · unfold buy_price_of
    nlinarith [mul_pos hb hs]
  · unfold sell_price_of
    nlinarith [mul_pos hb hs]

/-- C2 witness: at target 100, offset 0, spread 5 the buy price is below
and the sell price above the base price. -/
theorem C2_pricing_witness :
    buy_price_of (base_price_of 100 0) 5 < base_price_of 100 0
    ∧ base_price_of 100 0 < sell_price_of (base_price_of 100 0) 5 :=
  (C2_pricing 100 0 5).2.1 (by norm_num) (by norm_num [base_price_of])

/-- C3: with one configured market and one open debt position — a
position count equal to the market count — whose drift (50%) is at or
above `minimum_change_percentage` (10), `update_debt_positions` issues
no adjust-debt command at all: line 242 compares the position count to
the literal `3`, not to the number of configured markets, so the
snapshot falls into the reported "something is wrong" branch. -/
theorem C3_hardcoded_three :
    cSettings.markets.length = 1
    ∧ cSnapC3.debt_positions.length = 1
    ∧ get_debt_amounts cSettings cSnapC3 = some [("USD", 150)]
    ∧ (lookupA cSnapC3.debt_positions "USD").map DebtPosition.debt = some 100
    ∧ cSettings.minimum_change_percentage ≤ |(150:ℚ) / 100 - 1| * 100
    ∧ update_debt_positions cSettings cSnapC3 = some [] := by
  have habs : |(150:ℚ) / 100 - 1| = 1 / 2 := by
    rw [abs_of_nonneg] <;> norm_num
  refine ⟨rfl, rfl, ?_, rfl, by rw [habs]; norm_num [cSettings], ?_⟩
  · simp [get_debt_amounts, debt_step, get_total_bts, cSettings, cSnapC3,
      bts_total_collateral, bts_on_orderbook, order_list, lookupA, lookupM, memA,
      dictInsert, m0]
    norm_num
  · simp [update_debt_positions, get_debt_amounts, debt_step, get_total_bts, cSettings,
      cSnapC3, bts_total_collateral, bts_on_orderbook, order_list, lookupA, lookupM,
      memA, dictInsert, m0, place_initial_debt_positions]

/-- C10: an empty debt-position snapshot is falsy, so `get_total_bts`
falls through to reading the `calculate_bts_total` settings key, which
`init` neither requires nor defaults; when that key is absent the whole
bootstrap path (`get_total_bts`, `get_debt_amounts`,
`place_initial_debt_positions`) fails before any borrow command is
produced. -/
theorem C10_bootstrap (s : Settings) (snap : Snapshot)
    (hd : snap.debt_positions = [])
    (hc : s.calculate_bts_total = none) :
    get_total_bts s snap = none
    ∧ get_debt_amounts s snap = none
    ∧ place_initial_debt_positions s snap = none
    ∧ ∀ r s2, init r = Except.ok s2 →
        s2.calculate_bts_total = r.calculate_bts_total := by
  have h1 : get_total_bts s snap = none := by
    simp [get_total_bts, hd, hc]
  have h2 : get_debt_amounts s snap = none := by
    simp [get_debt_amounts, h1]
  refine ⟨h1, h2, by simp [place_initial_debt_positions, h2], ?_⟩
  intro r s2 hok
  unfold init at hok
  rcases htp : r.target_price with _ | tp <;> rw [htp] at hok <;> try cases hok
  rcases hsp : r.spread_percentage with _ | sp <;> rw [hsp] at hok <;> try cases hok
  rcases hv : r.volume_percentage with _ | v <;> rw [hv] at hok <;> try cases hok
  rcases hr : r.ratio with _ | rat <;> rw [hr] at hok <;> try cases hok
  rcases hbp : r.borrow_percentages with _ | bp <;> rw [hbp] at hok <;> try cases hok
  rcases hma : r.minimum_amounts with _ | ma <;> rw [hma] at hok <;> try cases hok
  rcases hmc : r.minimum_change_percentage with _ | mc <;> rw [hmc] at hok <;> cases hok
  rfl

/-- C10 witness: the concrete configuration (which lacks
`calculate_bts_total`) with the empty-debt snapshot: the bootstrap path
yields no result and hence no borrow command. -/
theorem C10_bootstrap_witness :
    get_total_bts cSettings cSnapC10 = none
    ∧ place_initial_debt_positions cSettings cSnapC10 = none :=
  ⟨(C10_bootstrap cSettings cSnapC10 rfl rfl).1,
   (C10_bootstrap cSettings cSnapC10 rfl rfl).2.2.1⟩

/-- C5: every tick increments the block counter (initially -1) by
exactly one; with `skip_blocks = 20` the snapshot refresh and per-market
reconciliation happen exactly when 20 divides the incremented counter
(counters 0, 20, 40, ...), and every other tick changes nothing but the
counter and emits no command. -/
theorem C5_scheduler (s : Settings) (fresh : Snapshot) (st : BotState)
    (hsk : s.skip_blocks = 20) :
    (∀ st2 cmds, tick s fresh st = some (st2, cmds) →
        st2.block_counter = st.block_counter + 1)
    ∧ (initialState fresh).block_counter = -1
    ∧ (¬ (20:Int) ∣ (st.block_counter + 1) →
        tick s fresh st = some ({ st with block_counter := st.block_counter + 1 }, []))
    ∧ ((20:Int) ∣ (st.block_counter + 1) →
        tick s fresh st =
          (s.markets.foldlM
              (fun acc m => do
                let r ← check_and_replace s fresh m
                return acc ++ r.1)
              []).map
            (fun cmds => ({ block_counter := st.block_counter + 1, snap := fresh }, cmds))) := by
  have hiff : (st.block_counter + 1) % s.skip_blocks = 0 ↔
      (20:Int) ∣ (st.block_counter + 1) := by
    rw [hsk]
    exact Int.dvd_iff_emod_eq_zero.symm
  by_cases hdvd : (20:Int) ∣ (st.block_counter + 1)
  · have h0 : (st.block_counter + 1) % s.skip_blocks = 0 := hiff.mpr hdvd
    have hwork : tick s fresh st =
        (s.markets.foldlM
            (fun acc m => do
              let r ← check_and_replace s fresh m
              return acc ++ r.1)
            []).map
          (fun cmds => ({ block_counter := st.block_counter + 1, snap := fresh }, cmds)) := by
      unfold tick
      rw [if_pos h0]
      cases s.markets.foldlM
          (fun acc m => do
            let r ← check_and_replace s fresh m
            return acc ++ r.1)
          [] with
      | none => rfl
      | some cs => rfl
    refine ⟨?_, rfl, fun hn => absurd hdvd hn, fun _ => hwork⟩
    intro st2 cmds htick
    rw [hwork] at htick
    cases hf : s.markets.foldlM
        (fun acc m => do
          let r ← check_and_replace s fresh m
          return acc ++ r.1)
        [] with
    | none => rw [hf] at htick; cases htick
    | some cs =>
        rw [hf] at htick
        injection htick with h
        injection h with ha hb
        rw [← ha]
  · have h0 : ¬ (st.block_counter + 1) % s.skip_blocks = 0 := fun h => hdvd (hiff.mp h)
    have hskip : tick s fresh st =
        some ({ st with block_counter := st.block_counter + 1 }, []) := by
      unfold tick
      rw [if_neg h0]
    refine ⟨?_, rfl, fun _ => hskip, fun hy => absurd hy hdvd⟩
    intro st2 cmds htick
    rw [hskip] at htick
    injection htick with h
    injection h with ha hb
    rw [← ha]

/-- C5 witness: with the concrete settings (skip 20), a tick at counter 5
only advances the counter to 6 and emits nothing. -/
theorem C5_scheduler_witness :
    tick cSettings cSnapC10 { block_counter := 5, snap := cSnapC10 } =
      some ({ block_counter := 6, snap := cSnapC10 }, []) :=
  (C5_scheduler cSettings cSnapC10 { block_counter := 5, snap := cSnapC10 }
      rfl).2.2.1 (by decide)

/-- C8: `init` fills exactly the defaults
`target_price_offset_percentage = 0`, `symmetric_sides = true`,
`expiration = 86400` and `skip_blocks = 20` when those keys are absent
(and preserves them when present), raises a `MissingSettingsException`
naming a missing key whenever any of the seven required keys is absent,
and accepts every configuration carrying all seven. -/
theorem C8_validator (r : RawSettings) :
    (requiredPresent r = true →
      ∃ s, init r = Except.ok s
        ∧ (r.target_price_offset_percentage = none →
            s.target_price_offset_percentage = 0)
        ∧ (r.symmetric_sides = none → s.symmetric_sides = true)
        ∧ (r.expiration = none → s.expiration = 86400)
        ∧ (r.skip_blocks = none → s.skip_blocks = 20)
        ∧ (∀ q, r.target_price_offset_percentage = some q →
            s.target_price_offset_percentage = q)
        ∧ (∀ b, r.symmetric_sides = some b → s.symmetric_sides = b)
        ∧ (∀ q, r.expiration = some q → s.expiration = q)
        ∧ (∀ n, r.skip_blocks = some n → s.skip_blocks = n))
    ∧ (requiredPresent r = false →
        ∃ k, init r = Except.error k ∧ requiredKeyMissing r k = true) := by
  constructor
  · intro hall
    simp only [requiredPresent, Bool.and_eq_true, Option.isSome_iff_exists] at hall
    obtain ⟨⟨⟨⟨⟨⟨⟨tp, htp⟩, ⟨sp, hsp⟩⟩, ⟨v, hv⟩⟩, ⟨rat, hrat⟩⟩, ⟨bp, hbp⟩⟩, ⟨ma, hma⟩⟩,
      ⟨mc, hmc⟩⟩ := hall
    have hok : init r = Except.ok
        { markets := r.markets
          target_price := tp
          target_price_offset_percentage := r.target_price_offset_percentage.getD 0
          spread_percentage := sp
          allowed_spread_percentage := r.allowed_spread_percentage
          volume_percentage := v
          symmetric_sides := r.symmetric_sides.getD true
          expiration := r.expiration.getD (60 * 60 * 24)
          skip_blocks := r.skip_blocks.getD 20
          ratio := rat
          borrow_percentages := bp
          minimum_amounts := ma
          minimum_change_percentage := mc
          calculate_bts_total := r.calculate_bts_total } := by
      unfold init
      rw [htp, hsp, hv, hrat, hbp, hma, hmc]
    refine ⟨_, hok, ?_, ?_, ?_, ?_, ?_, ?_, ?_, ?_⟩
    · intro h
      simp [h]
    · intro h
      simp [h]
    · intro h
      simp [h]
      norm_num
    · intro h
      simp [h]
    · intro q h
      simp [h]
    · intro b h
      simp [h]
    · intro q h
      simp [h]
    · intro n h
      simp [h]
  · intro hmiss
    rcases htp : r.target_price with _ | tp
    · exact ⟨"target_price", by unfold init; rw [htp],
        by simp [requiredKeyMissing, htp]⟩
    rcases hsp : r.spread_percentage with _ | sp
    · exact ⟨"spread_percentage", by unfold init; rw [htp, hsp],
        by simp [requiredKeyMissing, hsp]⟩
    rcases hv : r.volume_percentage with _ | v
    · exact ⟨"volume_percentage", by unfold init; rw [htp, hsp, hv],
        by simp [requiredKeyMissing, hv]⟩
    rcases hrat : r.ratio with _ | rat
    · exact ⟨"ratio", by unfold init; rw [htp, hsp, hv, hrat],
        by simp [requiredKeyMissing, hrat]⟩
    rcases hbp : r.borrow_percentages with _ | bp
    · exact ⟨"borrow_percentages", by unfold init; rw [htp, hsp, hv, hrat, hbp],
        by simp [requiredKeyMissing, hbp]⟩
    rcases hma : r.minimum_amounts with _ | ma
    · exact ⟨"minimum_amounts", by unfold init; rw [htp, hsp, hv, hrat, hbp, hma],
        by simp [requiredKeyMissing, hma]⟩
    rcases hmc : r.minimum_change_percentage with _ | mc
    · exact ⟨"minimum_change_percentage",
        by unfold init; rw [htp, hsp, hv, hrat, hbp, hma, hmc],
        by simp [requiredKeyMissing, hmc]⟩
    exfalso
    simp [requiredPresent, htp, hsp, hv, hrat, hbp, hma, hmc] at hmiss

/-- C8 witness: the full raw configuration passes `init`, and removing
`target_price` makes `init` fail naming a missing required key. -/
theorem C8_validator_witness :
    (∃ s, init rAll = Except.ok s
        ∧ (rAll.target_price_offset_percentage = none →
            s.target_price_offset_percentage = 0)
        ∧ (rAll.symmetric_sides = none → s.symmetric_sides = true)
        ∧ (rAll.expiration = none → s.expiration = 86400)
        ∧ (rAll.skip_blocks = none → s.skip_blocks = 20)
        ∧ (∀ q, rAll.target_price_offset_percentage = some q →
            s.target_price_offset_percentage = q)
        ∧ (∀ b, rAll.symmetric_sides = some b → s.symmetric_sides = b)
        ∧ (∀ q, rAll.expiration = some q → s.expiration = q)
        ∧ (∀ n, rAll.skip_blocks = some n → s.skip_blocks = n))
    ∧ (∃ k, init rMissing = Except.error k
        ∧ requiredKeyMissing rMissing k = true) :=
  ⟨(C8_validator rAll).1 (by decide), (C8_validator rMissing).2 (by decide)⟩

/-- Every command the sell side emits is a sell at `sell_price` whose
size passed the `minimum_amounts[quote]` gate. -/
theorem sell_side_mem (s : Settings) (snap : Snapshot) (market : Market)
    (only_sell only_buy : Bool) (buy_price sell_price : ℚ) (l : List Cmd)
    (hl : sell_side s snap market only_sell only_buy buy_price sell_price = some l)
    (c : Cmd) (hc : c ∈ l) :
    ∃ mq a, lookupA s.minimum_amounts market.1 = some mq ∧ mq ≤ a
      ∧ c = Cmd.sell market sell_price a := by
  unfold sell_side at hl
  cases hq : amounts? s snap market.1 with
  | none =>
      simp only [hq] at hl
      injection hl with hl
      subst hl
      cases hc
  | some aq =>
      simp only [hq] at hl
      cases hob : only_buy with
      | true =>
          simp [hob] at hl
          subst hl
          cases hc
      | false =>
          simp only [hob, Bool.not_false, if_true] at hl
          cases hmq : lookupA s.minimum_amounts market.1 with
          | none =>
              simp only [hmq] at hl
              cases hl
          | some mq =>
              simp only [hmq] at hl
              injection hl with hl
              subst hl
              cases hsym : s.symmetric_sides && !only_sell with
              | true =>
                  simp only [hsym, if_true] at hc
                  cases hab : amounts? s snap market.2 with
                  | none =>
                      simp only [hab] at hc
                      split at hc
                      next =>
                        rw [List.mem_singleton] at hc
                        subst hc
                        exact ⟨mq, _, rfl, by assumption, rfl⟩
                      next => cases hc
                  | some ab =>
                      simp only [hab] at hc
                      split at hc
                      next =>
                        rw [List.mem_singleton] at hc
                        subst hc
                        exact ⟨mq, _, rfl, by assumption, rfl⟩
                      next => cases hc
              | false =>
                  simp [hsym] at hc
                  obtain ⟨hle, hceq⟩ := hc
                  subst hceq
                  exact ⟨mq, _, rfl, hle, rfl⟩

/-- Every command the buy side emits is a buy at `buy_price` whose size
passed the `minimum_amounts[quote]` gate. -/
theorem buy_side_mem (s : Settings) (snap : Snapshot) (market : Market)
    (only_sell only_buy : Bool) (buy_price : ℚ) (l : List Cmd)
    (hl : buy_side s snap market only_sell only_buy buy_price = some l)
    (c : Cmd) (hc : c ∈ l) :
    ∃ mq a, lookupA s.minimum_amounts market.1 = some mq ∧ mq ≤ a
      ∧ c = Cmd.buy market buy_price a := by
  unfold buy_side at hl
  cases hq : amounts? s snap market.2 with
  | none =>
      simp only [hq] at hl
      injection hl with hl
      subst hl
      cases hc
  | some ab =>
      simp only [hq] at hl
      cases hos : only_sell with
      | true =>
          simp [hos] at hl
          subst hl
          cases hc
      | false =>
          simp only [hos, Bool.not_false, if_true] at hl
          cases hmq : lookupA s.minimum_amounts market.1 with
          | none =>
              simp only [hmq] at hl
              cases hl
          | some mq =>
              simp only [hmq] at hl
              injection hl with hl
              subst hl
              cases hsym : s.symmetric_sides && !only_buy with
              | true =>
                  simp only [hsym, if_true] at hc
                  cases haq : amounts? s snap market.1 with
                  | none =>
                      simp only [haq] at hc
                      split at hc
                      next =>
                        rw [List.mem_singleton] at hc
                        subst hc
                        exact ⟨mq, _, rfl, by assumption, rfl⟩
                      next => cases hc
                  | some aq =>
                      simp only [haq] at hc
                      split at hc
                      next =>
                        rw [List.mem_singleton] at hc
                        subst hc
                        exact ⟨mq, _, rfl, by assumption, rfl⟩
                      next => cases hc
              | false =>
                  simp [hsym] at hc
                  obtain ⟨hle, hceq⟩ := hc
                  subst hceq
                  exact ⟨mq, _, rfl, hle, rfl⟩

/-- Every command `place_orders` emits is a sell or a buy for this
market, priced from the resolved base price, whose size passed the
`minimum_amounts[quote]` gate. -/
theorem place_orders_mem (s : Settings) (snap : Snapshot) (market : Market)
    (only_sell only_buy : Bool) (cmds : List Cmd)
    (hpo : place_orders s snap market only_sell only_buy = some cmds)
    (c : Cmd) (hc : c ∈ cmds) :
    ∃ bp mq a, resolve_base_price s snap market = some bp
      ∧ lookupA s.minimum_amounts market.1 = some mq ∧ mq ≤ a
      ∧ (c = Cmd.sell market (sell_price_of bp s.spread_percentage) a
         ∨ c = Cmd.buy market (buy_price_of bp s.spread_percentage) a) := by
  unfold place_orders at hpo
  cases hbp : resolve_base_price s snap market with
  | none => rw [hbp] at hpo; cases hpo
  | some bp =>
    rw [hbp] at hpo
    simp only [Option.bind_eq_bind, Option.some_bind] at hpo
    cases hsl : sell_side s snap market only_sell only_buy
        (buy_price_of bp s.spread_percentage)
        (sell_price_of bp s.spread_percentage) with
    | none => rw [hsl] at hpo; cases hpo
    | some sl =>
      rw [hsl] at hpo
      simp only [Option.some_bind] at hpo
      cases hbl : buy_side s snap market only_sell only_buy
          (buy_price_of bp s.spread_percentage) with
      | none => rw [hbl] at hpo; cases hpo
      | some bl =>
        rw [hbl] at hpo
        simp only [Option.some_bind] at hpo
        injection hpo with hpo
        subst hpo
        rcases List.mem_append.mp hc with hcs | hcb
        · obtain ⟨mq, a, hmq, hle, hceq⟩ :=
            sell_side_mem s snap market only_sell only_buy _ _ sl hsl c hcs
          exact ⟨bp, mq, a, rfl, hmq, hle, Or.inl hceq⟩
        · obtain ⟨mq, a, hmq, hle, hceq⟩ :=
            buy_side_mem s snap market only_sell only_buy _ bl hbl c hcb
          exact ⟨bp, mq, a, rfl, hmq, hle, Or.inr hceq⟩

/-- Every command `place_orders` emits is an order placement (no cancel,
borrow or debt adjustment). -/
theorem place_orders_placement_only (s : Settings) (snap : Snapshot)
    (market : Market) (only_sell only_buy : Bool) (cmds : List Cmd)
    (hpo : place_orders s snap market only_sell only_buy = some cmds) :
    ∀ c ∈ cmds, c.isOrderPlacement = true := by
  intro c hc
  obtain ⟨bp, mq, a, _, _, _, hceq⟩ :=
    place_orders_mem s snap market only_sell only_buy cmds hpo c hc
  rcases hceq with h | h <;> subst h <;> rfl

/-- C7: `place_orders` never submits an order whose size is below
`minimum_amounts[quote]`; the gate compares both the sell side's and the
buy side's computed size against `minimum_amounts[market.1]`, the quote
asset's configured minimum. -/
theorem C7_minimum_gate (s : Settings) (snap : Snapshot) (market : Market)
    (only_sell only_buy : Bool) (cmds : List Cmd)
    (hpo : place_orders s snap market only_sell only_buy = some cmds) :
    ∀ c ∈ cmds, ∀ a, Cmd.orderAmount c = some a →
      ∃ mq, lookupA s.minimum_amounts market.1 = some mq ∧ mq ≤ a := by
  intro c hc a ha
  obtain ⟨bp, mq, a2, hbp, hmq, hle, hceq⟩ :=
    place_orders_mem s snap market only_sell only_buy cmds hpo c hc
  rcases hceq with h | h <;> subst h <;>
    (injection ha with ha; subst ha; exact ⟨mq, hmq, hle⟩)

/-- C1: in the two-sided state the Reconciler cancels all of the
market's open orders and re-places both sides exactly when some open
order's feed spread is at most `allowed_spread_percentage / 2` or at
least `(allowed_spread_percentage + spread_percentage) / 2`; the
replacement happens once (commands: every cancel, then one fresh
two-sided placement); and when every order is strictly between the
thresholds the run cancels and places nothing (`some ([], false)`), so
a second run on the unchanged snapshot is also a no-op. -/
theorem C1_two_sided_replace (s : Settings) (snap : Snapshot) (market : Market)
    (orders : List Order) (sp asp : ℚ)
    (ho : lookupM snap.open_orders market = some orders)
    (hlen : 2 ≤ orders.length)
    (hsp : lookupM snap.ticker market = some sp)
    (hasp : s.allowed_spread_percentage = some asp)
    (hq : memA snap.debt_positions market.1 = true) :
    (check_and_replace s snap market =
        (place_orders s snap market false false).map
          (fun pc => (orders.map (fun o => Cmd.cancel o.orderNumber) ++ pc, true))
      ↔ ∃ o ∈ orders, trigger asp s.spread_percentage o sp = true)
    ∧ ((∀ o ∈ orders, trigger asp s.spread_percentage o sp = false) →
        check_and_replace s snap market = some ([], false)) := by
  rcases orders with _ | ⟨a, _ | ⟨b, t⟩⟩
  · norm_num at hlen
  · norm_num at hlen
  · cases hf : (a :: b :: t).find? (fun o => trigger asp s.spread_percentage o sp) with
    | none =>
        have hnot : ∀ o ∈ a :: b :: t,
            trigger asp s.spread_percentage o sp = false := by
          intro o hmem
          have h2 := List.find?_eq_none.mp hf o hmem
          simpa using h2
        have hcheck : check_and_replace s snap market = some ([], false) := by
          unfold check_and_replace
          rw [ho]
          simp only [List.length_cons, Option.bind_eq_bind]
          rw [if_neg (by omega)]
          simp only [Option.some_bind]
          rw [dif_neg (by omega)]
          try simp only [Option.some_bind]
          rw [hsp]
          try simp only [Option.some_bind]
          rw [hasp]
          try simp only [Option.some_bind]
          rw [hf]
          unfold debt_check
          rw [if_pos hq]
          rfl
        refine ⟨⟨fun heq => ?_, fun hex => ?_⟩, fun _ => hcheck⟩
        · exfalso
          rw [hcheck] at heq
          cases hpo : place_orders s snap market false false with
          | none => rw [hpo] at heq; simp at heq
          | some pc => rw [hpo] at heq; simp at heq
        · obtain ⟨o, hmem, htrig⟩ := hex
          rw [hnot o hmem] at htrig
          cases htrig
    | some o =>
        have hmem := List.mem_of_find?_eq_some hf
        have htrig0 := List.find?_some hf
        have htrig : trigger asp s.spread_percentage o sp = true := htrig0
        have hcheck : check_and_replace s snap market =
            (place_orders s snap market false false).map
              (fun pc => ((a :: b :: t).map (fun o2 => Cmd.cancel o2.orderNumber)
                ++ pc, true)) := by
          unfold check_and_replace
          rw [ho]
          simp only [List.length_cons, Option.bind_eq_bind]
          rw [if_neg (by omega)]
          simp only [Option.some_bind]
          rw [dif_neg (by omega)]
          try simp only [Option.some_bind]
          rw [hsp]
          try simp only [Option.some_bind]
          rw [hasp]
          try simp only [Option.some_bind]
          rw [hf]
          have hcc : cancel_orders snap market =
              some ((a :: b :: t).map (fun o2 => Cmd.cancel o2.orderNumber)) := by
            unfold cancel_orders
            rw [ho]
            rfl
          dsimp only
          rw [hcc]
          simp only [Option.some_bind]
          cases place_orders s snap market false false <;> rfl
        refine ⟨⟨fun _ => ⟨o, hmem, htrig⟩, fun _ => hcheck⟩, fun hno => ?_⟩
        rw [hno o hmem] at htrig
        cases htrig

theorem lookupA_cons {α : Type} (p : String × α) (t : List (String × α))
    (k : String) :
    lookupA (p :: t) k = if p.1 == k then some p.2 else lookupA t k := by
  unfold lookupA
  cases hpk : (p.1 == k) <;> simp [List.find?, hpk]

theorem lookupA_replace {α : Type} (l : List (String × α)) (k : String) (v : α) :
    memA l k = true →
    lookupA (l.map (fun p => if p.1 == k then (k, v) else p)) k = some v := by
  induction l with
  | nil =>
      intro h
      simp [memA, lookupA, List.find?] at h
  | cons p t ih =>
      intro h
      by_cases hpk : p.1 = k
      · have hbk : (p.1 == k) = true := beq_iff_eq.mpr hpk
        rw [List.map_cons, if_pos hbk, lookupA_cons]
        simp
      · have hbk : (p.1 == k) = false := beq_eq_false_iff_ne.mpr hpk
        rw [List.map_cons, if_neg (by simp [hbk]), lookupA_cons,
          if_neg (by simp [hbk])]
        apply ih
        unfold memA at h ⊢
        rw [lookupA_cons, if_neg (by simp [hbk])] at h
        exact h

theorem lookupA_append_single {α : Type} (l : List (String × α)) (k : String)
    (v : α) :
    memA l k = false → lookupA (l ++ [(k, v)]) k = some v := by
  induction l with
  | nil =>
      intro _
      simp [lookupA, List.find?]
  | cons p t ih =>
      intro h
      unfold memA at h
      rw [lookupA_cons] at h
      rw [List.cons_append, lookupA_cons]
      by_cases hpk : p.1 = k
      · rw [if_pos (beq_iff_eq.mpr hpk)] at h
        simp at h
      · have hbk : (p.1 == k) = false := beq_eq_false_iff_ne.mpr hpk
        rw [if_neg (by simp [hbk])] at h ⊢
        exact ih (by unfold memA; exact h)

theorem lookupA_dictInsert_self {α : Type} (l : List (String × α)) (k : String)
    (v : α) :
    lookupA (dictInsert l k v) k = some v := by
  unfold dictInsert
  by_cases hmem : memA l k = true
  · rw [if_pos hmem]
    exact lookupA_replace l k v hmem
  · rw [if_neg hmem]
    exact lookupA_append_single l k v (by simpa using hmem)

theorem lookupA_map_replace_ne {α : Type} (l : List (String × α)) (k k2 : String)
    (v : α) (hne : k2 ≠ k) :
    lookupA (l.map (fun p => if p.1 == k then (k, v) else p)) k2 =
      lookupA l k2 := by
  induction l with
  | nil => rfl
  | cons p t ih =>
      rw [List.map_cons]
      by_cases hpk : p.1 = k
      · have hbk : (p.1 == k) = true := beq_iff_eq.mpr hpk
        rw [if_pos hbk, lookupA_cons, lookupA_cons]
        have hkk2 : ((k, v).1 == k2) = false :=
          beq_eq_false_iff_ne.mpr (fun h => hne h.symm)
        have hpk2 : (p.1 == k2) = false :=
          beq_eq_false_iff_ne.mpr (by rw [hpk]; exact fun h => hne h.symm)
        rw [if_neg (by simp [hkk2]), if_neg (by simp [hpk2])]
        exact ih
      · have hbk : (p.1 == k) = false := beq_eq_false_iff_ne.mpr hpk
        rw [if_neg (by simp [hbk]), lookupA_cons, lookupA_cons]
        by_cases hp2 : p.1 = k2
        · rw [if_pos (beq_iff_eq.mpr hp2), if_pos (beq_iff_eq.mpr hp2)]
        · have h2 : (p.1 == k2) = false := beq_eq_false_iff_ne.mpr hp2
          rw [if_neg (by simp [h2]), if_neg (by simp [h2])]
          exact ih

theorem lookupA_append_single_ne {α : Type} (l : List (String × α))
    (k k2 : String) (v : α) (hne : k2 ≠ k) :
    lookupA (l ++ [(k, v)]) k2 = lookupA l k2 := by
  induction l with
  | nil =>
      have hkk2 : ((k, v).1 == k2) = false :=
        beq_eq_false_iff_ne.mpr (fun h => hne h.symm)
      rw [List.nil_append, lookupA_cons, if_neg (by simp [hkk2])]
  | cons p t ih =>
      rw [List.cons_append, lookupA_cons, lookupA_cons]
      by_cases hp2 : p.1 = k2
      · rw [if_pos (beq_iff_eq.mpr hp2), if_pos (beq_iff_eq.mpr hp2)]
      · have h2 : (p.1 == k2) = false := beq_eq_false_iff_ne.mpr hp2
        rw [if_neg (by simp [h2]), if_neg (by simp [h2])]
        exact ih

theorem lookupA_dictInsert_ne {α : Type} (l : List (String × α)) (k k2 : String)
    (v : α) (hne : k2 ≠ k) :
    lookupA (dictInsert l k v) k2 = lookupA l k2 := by
  unfold dictInsert
  by_cases hmem : memA l k = true
  · rw [if_pos hmem]
    exact lookupA_map_replace_ne l k k2 v hne
  · rw [if_neg hmem]
    exact lookupA_append_single_ne l k k2 v hne

/-- Markets whose quote is not `k` leave `quote_amounts[k]` unchanged. -/
theorem debt_fold_skip (s : Settings) (snap : Snapshot) (tb : ℚ)
    (l : List Market) (k : String) :
    ∀ acc da, l.foldlM (debt_step s snap tb) acc = some da →
      k ∉ l.map Prod.fst → lookupA da k = lookupA acc k := by
  induction l with
  | nil =>
      intro acc da hf _
      injection hf with hf
      rw [hf]
  | cons m tl ih =>
      intro acc da hf hk
      rw [List.foldlM_cons] at hf
      cases hstep : debt_step s snap tb acc m with
      | none => rw [hstep] at hf; cases hf
      | some acc2 =>
          rw [hstep] at hf
          simp only [Option.bind_eq_bind, Option.some_bind] at hf
          simp only [List.map_cons, List.mem_cons, not_or] at hk
          obtain ⟨hk1, hk2⟩ := hk
          rw [ih acc2 da hf hk2]
          unfold debt_step at hstep
          cases hpct : lookupA s.borrow_percentages m.1 with
          | none => rw [hpct] at hstep; cases hstep
          | some pct =>
              rw [hpct] at hstep
              simp only [Option.bind_eq_bind, Option.some_bind] at hstep
              cases hsp : lookupM snap.ticker m with
              | none => rw [hsp] at hstep; cases hstep
              | some sp =>
                  rw [hsp] at hstep
                  simp only [Option.bind_eq_bind, Option.some_bind] at hstep
                  injection hstep with hstep
                  rw [← hstep]
                  exact lookupA_dictInsert_ne acc m.1 k _ hk1

/-- With pairwise-distinct quote symbols, the fold stores exactly
`tb * (borrow_percentages[quote] / 100) / settlement_price` per market. -/
theorem debt_fold_lookup (s : Settings) (snap : Snapshot) (tb : ℚ)
    (l : List Market) :
    ∀ acc da, l.foldlM (debt_step s snap tb) acc = some da →
      (l.map Prod.fst).Nodup →
      ∀ m ∈ l, ∀ pct sp, lookupA s.borrow_percentages m.1 = some pct →
        lookupM snap.ticker m = some sp →
        lookupA da m.1 = some (tb * (pct / 100) / sp) := by
  induction l with
  | nil =>
      intro acc da _ _ m hm
      cases hm
  | cons m0 tl ih =>
      intro acc da hf hnd m hm pct sp hpct hsp
      rw [List.foldlM_cons] at hf
      cases hstep : debt_step s snap tb acc m0 with
      | none => rw [hstep] at hf; cases hf
      | some acc2 =>
          rw [hstep] at hf
          simp only [Option.bind_eq_bind, Option.some_bind] at hf
          rw [List.map_cons] at hnd
          have hnd2 := List.nodup_cons.mp hnd
          rcases List.mem_cons.mp hm with h | h
          · subst h
            rw [debt_fold_skip s snap tb tl m.1 acc2 da hf hnd2.1]
            unfold debt_step at hstep
            rw [hpct] at hstep
            simp only [Option.bind_eq_bind, Option.some_bind] at hstep
            rw [hsp] at hstep
            simp only [Option.bind_eq_bind, Option.some_bind] at hstep
            injection hstep with hstep
            rw [← hstep]
            exact lookupA_dictInsert_self acc m.1 _
          · exact ih acc2 da hf hnd2.2 m h pct sp hpct hsp

/-- C9: `totalBacking` is the BTS-collateral sum plus the free BTS
balance plus the total committed to open buy orders, and each market's
desired debt is `totalBacking * (borrow_percentages[quote] / 100) /
settlement_price` (stated for snapshots with at least one debt position
— the empty case is the C10 failure — and configurations whose quote
symbols are pairwise distinct). -/
theorem C9_debt_allocation (s : Settings) (snap : Snapshot) (b : ℚ)
    (hb : lookupA snap.balances "BTS" = some b)
    (hne : snap.debt_positions ≠ []) :
    get_total_bts s snap =
      some (bts_total_collateral snap + b + bts_on_orderbook snap)
    ∧ ∀ da, get_debt_amounts s snap = some da →
        (s.markets.map Prod.fst).Nodup →
        ∀ m ∈ s.markets, ∀ pct sp,
          lookupA s.borrow_percentages m.1 = some pct →
          lookupM snap.ticker m = some sp →
          lookupA da m.1 =
            some ((bts_total_collateral snap + b + bts_on_orderbook snap)
              * (pct / 100) / sp) := by
  have hne2 : snap.debt_positions.isEmpty = false := by
    rcases hdp : snap.debt_positions with _ | ⟨p, tl⟩
    · exact absurd hdp hne
    · rfl
  have h1 : get_total_bts s snap =
      some (bts_total_collateral snap + b + bts_on_orderbook snap) := by
    unfold get_total_bts
    rw [if_neg (by simp [hne2])]
    simp only [Option.bind_eq_bind, Option.some_bind]
    rw [hb]
    rfl
  refine ⟨h1, ?_⟩
  intro da hda hnd m hm pct sp hpct hsp
  unfold get_debt_amounts at hda
  rw [h1] at hda
  simp only [Option.bind_eq_bind, Option.some_bind] at hda
  exact debt_fold_lookup s snap _ s.markets [] da hda hnd m hm pct sp hpct hsp

/-- C9 witness: with BTS collateral 300, free BTS 700, no open orders
and settlement price 2, `totalBacking = 1000` and the USD allocation is
`1000 * (30/100) / 2 = 150` exactly. -/
theorem C9_debt_allocation_witness :
    get_total_bts cSettings cSnapC3 =
      some (bts_total_collateral cSnapC3 + 700 + bts_on_orderbook cSnapC3)
    ∧ lookupA [("USD", (150 : ℚ))] "USD" =
        some ((bts_total_collateral cSnapC3 + 700 + bts_on_orderbook cSnapC3)
          * ((30 : ℚ) / 100) / 2)
    ∧ (bts_total_collateral cSnapC3 + 700 + bts_on_orderbook cSnapC3)
        * ((30 : ℚ) / 100) / 2 = 150 := by
  have hnum : (bts_total_collateral cSnapC3 + 700 + bts_on_orderbook cSnapC3)
      * ((30 : ℚ) / 100) / 2 = 150 := by
    simp [bts_total_collateral, bts_on_orderbook, order_list, cSnapC3]
    norm_num
  refine ⟨(C9_debt_allocation cSettings cSnapC3 700 rfl (by simp [cSnapC3])).1,
    ?_, hnum⟩
  have h2 := (C9_debt_allocation cSettings cSnapC3 700 rfl (by simp [cSnapC3])).2
    [("USD", 150)] ?_ (by simp [cSettings, m0]) m0 (by simp [cSettings]) 30 2
    rfl rfl
  · exact h2
  · simp [get_debt_amounts, debt_step, get_total_bts, cSettings, cSnapC3,
      bts_total_collateral, bts_on_orderbook, order_list, lookupA, lookupM,
      memA, dictInsert, m0]
    norm_num

/-- With an empty order list for the market, `check_and_replace` places
both sides and then runs the debt-position check. -/
theorem check_empty_orders (s : Settings) (snap : Snapshot) (market : Market)
    (ho : lookupM snap.open_orders market = some []) :
    check_and_replace s snap market =
      (place_orders s snap market false false).bind
        (fun c0 => debt_check s snap market c0) := by
  unfold check_and_replace
  rw [ho]
  simp only [List.length_nil, Option.bind_eq_bind]
  rw [if_pos trivial]
  cases hpo : place_orders s snap market false false with
  | none => rfl
  | some c0 =>
      rw [Option.some_bind]
      rw [dif_neg (by omega)]
      dsimp only [Option.bind]
      rw [List.append_nil]

/-- With a single order whose feed spread is strictly between the two
thresholds, `check_and_replace` places the missing side (buy-only when a
sell exists, sell-only when a buy exists) and then runs the
debt-position check; nothing is cancelled. -/
theorem check_one_sided_quiet (s : Settings) (snap : Snapshot) (market : Market)
    (o : Order) (sp asp : ℚ)
    (hsp : lookupM snap.ticker market = some sp)
    (hasp : s.allowed_spread_percentage = some asp)
    (ho : lookupM snap.open_orders market = some [o])
    (htrig : trigger asp s.spread_percentage o sp = false) :
    check_and_replace s snap market =
      (place_orders s snap market (o.type == OrderType.buy)
          (o.type == OrderType.sell)).bind
        (fun c1 => debt_check s snap market c1) := by
  obtain ⟨num, ty, rate, total⟩ := o
  cases ty with
  | sell =>
      show check_and_replace s snap market =
        (place_orders s snap market false true).bind
          (fun c1 => debt_check s snap market c1)
      unfold check_and_replace
      rw [ho]
      simp only [List.length_cons, List.length_nil, Option.bind_eq_bind]
      rw [if_neg (by omega)]
      simp only [Option.some_bind]
      rw [dif_pos trivial]
      dsimp only [List.head]
      cases hpo : place_orders s snap market false true with
      | none => rfl
      | some c1 =>
          dsimp only [Option.bind]
          rw [hsp]
          dsimp only [Option.bind]
          rw [hasp]
          dsimp only [Option.bind]
          simp only [List.find?]
          simp only [htrig]
          rfl
  | buy =>
      show check_and_replace s snap market =
        (place_orders s snap market true false).bind
          (fun c1 => debt_check s snap market c1)
      unfold check_and_replace
      rw [ho]
      simp only [List.length_cons, List.length_nil, Option.bind_eq_bind]
      rw [if_neg (by omega)]
      simp only [Option.some_bind]
      rw [dif_pos trivial]
      dsimp only [List.head]
      cases hpo : place_orders s snap market true false with
      | none => rfl
      | some c1 =>
          dsimp only [Option.bind]
          rw [hsp]
          dsimp only [Option.bind]
          rw [hasp]
          dsimp only [Option.bind]
          simp only [List.find?]
          simp only [htrig]
          rfl

/-- With a single order whose feed spread hits the thresholds,
`check_and_replace` still places the missing side first, and then
cancels the existing order and re-places both sides. -/
theorem check_one_sided_trigger (s : Settings) (snap : Snapshot)
    (market : Market) (o : Order) (sp asp : ℚ)
    (hsp : lookupM snap.ticker market = some sp)
    (hasp : s.allowed_spread_percentage = some asp)
    (ho : lookupM snap.open_orders market = some [o])
    (htrig : trigger asp s.spread_percentage o sp = true) :
    check_and_replace s snap market =
      (place_orders s snap market (o.type == OrderType.buy)
          (o.type == OrderType.sell)).bind
        (fun c1 => (place_orders s snap market false false).map
          (fun c2 => (c1 ++ [Cmd.cancel o.orderNumber] ++ c2, true))) := by
  have hcc : cancel_orders snap market = some [Cmd.cancel o.orderNumber] := by
    unfold cancel_orders
    rw [ho]
    rfl
  obtain ⟨num, ty, rate, total⟩ := o
  cases ty with
  | sell =>
      show check_and_replace s snap market =
        (place_orders s snap market false true).bind
          (fun c1 => (place_orders s snap market false false).map
            (fun c2 => (c1 ++ [Cmd.cancel num] ++ c2, true)))
      unfold check_and_replace
      rw [ho]
      simp only [List.length_cons, List.length_nil, Option.bind_eq_bind]
      rw [if_neg (by omega)]
      simp only [Option.some_bind]
      rw [dif_pos trivial]
      dsimp only [List.head]
      cases hpo : place_orders s snap market false true with
      | none => rfl
      | some c1 =>
          dsimp only [Option.bind]
          rw [hsp]
          dsimp only [Option.bind]
          rw [hasp]
          dsimp only [Option.bind]
          simp only [List.find?]
          simp only [htrig]
          rw [hcc]
          dsimp only [Option.bind]
          cases place_orders s snap market false false <;> rfl
  | buy =>
      show check_and_replace s snap market =
        (place_orders s snap market true false).bind
          (fun c1 => (place_orders s snap market false false).map
            (fun c2 => (c1 ++ [Cmd.cancel num] ++ c2, true)))
      unfold check_and_replace
      rw [ho]
      simp only [List.length_cons, List.length_nil, Option.bind_eq_bind]
      rw [if_neg (by omega)]
      simp only [Option.some_bind]
      rw [dif_pos trivial]
      dsimp only [List.head]
      cases hpo : place_orders s snap market true false with
      | none => rfl
      | some c1 =>
          dsimp only [Option.bind]
          rw [hsp]
          dsimp only [Option.bind]
          rw [hasp]
          dsimp only [Option.bind]
          simp only [List.find?]
          simp only [htrig]
          rw [hcc]
          dsimp only [Option.bind]
          cases place_orders s snap market false false <;> rfl

/-- Whenever `check_and_replace` returns without triggering a replace,
its commands are some order placements followed by whatever the
debt-position check emits. -/
theorem check_returns_false (s : Settings) (snap : Snapshot) (market : Market)
    (cmds : List Cmd)
    (hcr : check_and_replace s snap market = some (cmds, false)) :
    ∃ pre, (∀ c ∈ pre, c.isOrderPlacement = true)
      ∧ debt_check s snap market pre = some (cmds, false) := by
  unfold check_and_replace at hcr
  cases ho : lookupM snap.open_orders market with
  | none =>
      rw [ho] at hcr
      exact ⟨[], fun c hc => absurd hc (List.not_mem_nil c), hcr⟩
  | some orders =>
      rw [ho] at hcr
      rcases orders with _ | ⟨a, _ | ⟨b, t⟩⟩
      · simp only [List.length_nil, Option.bind_eq_bind] at hcr
        rw [if_pos trivial] at hcr
        cases hpo : place_orders s snap market false false with
        | none => rw [hpo] at hcr; cases hcr
        | some c0 =>
            rw [hpo] at hcr
            rw [Option.some_bind] at hcr
            rw [dif_neg (by omega)] at hcr
            dsimp only [Option.bind] at hcr
            rw [List.append_nil] at hcr
            exact ⟨c0,
              place_orders_placement_only s snap market false false c0 hpo, hcr⟩
      · simp only [List.length_cons, List.length_nil, Option.bind_eq_bind] at hcr
        rw [if_neg (by omega)] at hcr
        simp only [Option.some_bind] at hcr
        rw [dif_pos trivial] at hcr
        dsimp only [List.head] at hcr
        obtain ⟨num, ty, rate, total⟩ := a
        cases ty with
        | sell =>
            cases hpo : place_orders s snap market false true with
            | none => rw [hpo] at hcr; cases hcr
            | some c1 =>
                rw [hpo] at hcr
                dsimp only [Option.bind] at hcr
                cases hsp2 : lookupM snap.ticker market with
                | none => rw [hsp2] at hcr; cases hcr
                | some sp =>
                    rw [hsp2] at hcr
                    dsimp only [Option.bind] at hcr
                    cases hasp2 : s.allowed_spread_percentage with
                    | none => rw [hasp2] at hcr; cases hcr
                    | some asp =>
                        rw [hasp2] at hcr
                        dsimp only [Option.bind] at hcr
                        simp only [List.find?] at hcr
                        cases htr : trigger asp s.spread_percentage
                            ⟨num, OrderType.sell, rate, total⟩ sp with
                        | true =>
                            simp only [htr] at hcr
                            cases hcc : cancel_orders snap market with
                            | none => rw [hcc] at hcr; cases hcr
                            | some cc =>
                                rw [hcc] at hcr
                                dsimp only [Option.bind] at hcr
                                cases hpo2 : place_orders s snap market
                                    false false with
                                | none => rw [hpo2] at hcr; cases hcr
                                | some c2 =>
                                    rw [hpo2] at hcr
                                    dsimp only [Option.bind] at hcr
                                    simp at hcr
                        | false =>
                            simp only [htr] at hcr
                            rw [List.nil_append] at hcr
                            exact ⟨c1, place_orders_placement_only s snap market
                              false true c1 hpo, hcr⟩
        | buy =>
            cases hpo : place_orders s snap market true false with
            | none => rw [hpo] at hcr; cases hcr
            | some c1 =>
                rw [hpo] at hcr
                dsimp only [Option.bind] at hcr
                cases hsp2 : lookupM snap.ticker market with
                | none => rw [hsp2] at hcr; cases hcr
                | some sp =>
                    rw [hsp2] at hcr
                    dsimp only [Option.bind] at hcr
                    cases hasp2 : s.allowed_spread_percentage with
                    | none => rw [hasp2] at hcr; cases hcr
                    | some asp =>
                        rw [hasp2] at hcr
                        dsimp only [Option.bind] at hcr
                        simp only [List.find?] at hcr
                        cases htr : trigger asp s.spread_percentage
                            ⟨num, OrderType.buy, rate, total⟩ sp with
                        | true =>
                            simp only [htr] at hcr
                            cases hcc : cancel_orders snap market with
                            | none => rw [hcc] at hcr; cases hcr
                            | some cc =>
                                rw [hcc] at hcr
                                dsimp only [Option.bind] at hcr
                                cases hpo2 : place_orders s snap market
                                    false false with
                                | none => rw [hpo2] at hcr; cases hcr
                                | some c2 =>
                                    rw [hpo2] at hcr
                                    dsimp only [Option.bind] at hcr
                                    simp at hcr
                        | false =>
                            simp only [htr] at hcr
                            rw [List.nil_append] at hcr
                            exact ⟨c1, place_orders_placement_only s snap market
                              true false c1 hpo, hcr⟩
      · simp only [List.length_cons, Option.bind_eq_bind] at hcr
        rw [if_neg (by omega)] at hcr
        simp only [Option.some_bind] at hcr
        rw [dif_neg (by omega)] at hcr
        try simp only [Option.some_bind] at hcr
        try dsimp only [Option.bind] at hcr
        cases hsp2 : lookupM snap.ticker market with
        | none => rw [hsp2] at hcr; cases hcr
        | some sp =>
            rw [hsp2] at hcr
            dsimp only [Option.bind] at hcr
            cases hasp2 : s.allowed_spread_percentage with
            | none => rw [hasp2] at hcr; cases hcr
            | some asp =>
                rw [hasp2] at hcr
                dsimp only [Option.bind] at hcr
                cases hf : (a :: b :: t).find?
                    (fun o => trigger asp s.spread_percentage o sp) with
                | some o2 =>
                    rw [hf] at hcr
                    dsimp only at hcr
                    cases hcc : cancel_orders snap market with
                    | none => rw [hcc] at hcr; cases hcr
                    | some cc =>
                        rw [hcc] at hcr
                        dsimp only [Option.bind] at hcr
                        cases hpo2 : place_orders s snap market false false with
                        | none => rw [hpo2] at hcr; cases hcr
                        | some c2 =>
                            rw [hpo2] at hcr
                            dsimp only [Option.bind] at hcr
                            simp at hcr
                | none =>
                    rw [hf] at hcr
                    dsimp only at hcr
                    exact ⟨[], fun c hc => absurd hc (List.not_mem_nil c), hcr⟩

/-- C1 witness: for the two-sided snapshot whose orders sit 2.5% from
the feed — strictly between the thresholds 1.25 and 3.75 — the
Reconciler cancels and places nothing. -/
theorem C1_two_sided_replace_witness :
    check_and_replace cSettings cSnapC1 m0 = some ([], false) :=
  (C1_two_sided_replace cSettings cSnapC1 m0
    [⟨"o1", OrderType.sell, 41/20, 10⟩, ⟨"o2", OrderType.buy, 39/20, 10⟩] 2 (5/2)
    rfl (by norm_num) rfl rfl rfl).2 (by
      intro o hmem
      fin_cases hmem <;>
        (simp [trigger, cSettings]
         norm_num
         constructor <;> (rw [abs_of_nonneg] <;> norm_num)))

/-- C7 witness: in the concrete two-sided placement, the sell order of
size 10 passed the USD minimum of 1/10. -/
theorem C7_minimum_gate_witness :
    ∃ mq, lookupA cSettings.minimum_amounts m0.1 = some mq ∧ mq ≤ 10 :=
  C7_minimum_gate cSettings cSnapC4 m0 false false
    [Cmd.sell m0 (41/20) 10, Cmd.buy m0 (39/20) 10]
    (by
      show place_orders cSettings cSnapC4 m0 false false = _
      simp [place_orders, sell_side, buy_side, amounts?, asset_ids,
        resolve_base_price, base_price_of, buy_price_of, sell_price_of,
        lookupA, lookupM, memA, cSettings, cSnapC4, m0]
      norm_num)
    (Cmd.sell m0 (41/20) 10) (List.mem_cons_self _ _) 10 rfl

/-- C6 counterexample: in the one-sided state (a single sell order 50%
from the feed) the Reconciler places the missing buy side and then ALSO
cancels the existing order and re-places both sides — the claim's "no
cancellation or replacement in that state" is false. -/
theorem C6_counterexample :
    check_and_replace cSettings cSnapC6 m0 =
      some ([Cmd.buy m0 (39/20) (2000/39), Cmd.cancel "o1",
             Cmd.sell m0 (41/20) 10, Cmd.buy m0 (39/20) 10], true)
    ∧ (check_and_replace cSettings cSnapC6 m0).map
        (fun r => r.1.any Cmd.isCancel) = some true := by
  have htrig : trigger (5/2) cSettings.spread_percentage
      ⟨"o1", OrderType.sell, 3, 30⟩ 2 = true := by
    simp [trigger, cSettings]
    rw [abs_of_nonneg] <;> norm_num
  have h := check_one_sided_trigger cSettings cSnapC6 m0
    ⟨"o1", OrderType.sell, 3, 30⟩ 2 (5/2) rfl rfl rfl htrig
  have hpo1 : place_orders cSettings cSnapC6 m0
      ((⟨"o1", OrderType.sell, 3, 30⟩ : Order).type == OrderType.buy)
      ((⟨"o1", OrderType.sell, 3, 30⟩ : Order).type == OrderType.sell) =
      some [Cmd.buy m0 (39/20) (2000/39)] := by
    show place_orders cSettings cSnapC6 m0 false true = _
    simp [place_orders, sell_side, buy_side, amounts?, asset_ids,
      resolve_base_price, base_price_of, buy_price_of, sell_price_of,
      lookupA, lookupM, memA, cSettings, cSnapC6, m0]
    norm_num
  have hpo2 : place_orders cSettings cSnapC6 m0 false false =
      some [Cmd.sell m0 (41/20) 10, Cmd.buy m0 (39/20) 10] := by
    simp [place_orders, sell_side, buy_side, amounts?, asset_ids,
      resolve_base_price, base_price_of, buy_price_of, sell_price_of,
      lookupA, lookupM, memA, cSettings, cSnapC6, m0]
    norm_num
  have heq : check_and_replace cSettings cSnapC6 m0 =
      some ([Cmd.buy m0 (39/20) (2000/39), Cmd.cancel "o1",
             Cmd.sell m0 (41/20) 10, Cmd.buy m0 (39/20) 10], true) := by
    rw [h, hpo1]
    dsimp only [Option.bind]
    rw [hpo2]
    rfl
  refine ⟨heq, ?_⟩
  rw [heq]
  rfl

/-- C6 (amended): in state `NoOrders` the Reconciler requests a
two-sided placement and runs the debt check; in state `OneSidedOrder` it
requests the missing side only (buy-only when the single order is a
sell, sell-only when it is a buy) — but the existing order is still
evaluated against the spread thresholds: when it is strictly between
them nothing is cancelled, and when it triggers, the order is cancelled
and both sides re-placed in the same run; `place_orders` itself never
emits a cancellation. -/
theorem C6_state_actions (s : Settings) (snap : Snapshot) (market : Market)
    (o : Order) (sp asp : ℚ)
    (hsp : lookupM snap.ticker market = some sp)
    (hasp : s.allowed_spread_percentage = some asp)
    (hq : memA snap.debt_positions market.1 = true) :
    (lookupM snap.open_orders market = some [] →
        check_and_replace s snap market =
          (place_orders s snap market false false).map (fun c => (c, false)))
    ∧ (lookupM snap.open_orders market = some [o] →
        trigger asp s.spread_percentage o sp = false →
        check_and_replace s snap market =
          (place_orders s snap market (o.type == OrderType.buy)
              (o.type == OrderType.sell)).map (fun c => (c, false)))
    ∧ (lookupM snap.open_orders market = some [o] →
        trigger asp s.spread_percentage o sp = true →
        check_and_replace s snap market =
          (place_orders s snap market (o.type == OrderType.buy)
              (o.type == OrderType.sell)).bind
            (fun c1 => (place_orders s snap market false false).map
              (fun c2 => (c1 ++ [Cmd.cancel o.orderNumber] ++ c2, true))))
    ∧ (∀ only_sell only_buy cmds,
        place_orders s snap market only_sell only_buy = some cmds →
        ∀ c ∈ cmds, c.isCancel = false) := by
  refine ⟨fun ho => ?_, fun ho htrig => ?_,
    fun ho htrig => check_one_sided_trigger s snap market o sp asp hsp hasp ho htrig,
    fun os ob cmds hpo c hc => ?_⟩
  · rw [check_empty_orders s snap market ho]
    cases hpo : place_orders s snap market false false with
    | none => rfl
    | some c0 =>
        dsimp only [Option.bind, Option.map]
        unfold debt_check
        rw [if_pos hq]
  · rw [check_one_sided_quiet s snap market o sp asp hsp hasp ho htrig]
    cases hpo : place_orders s snap market (o.type == OrderType.buy)
        (o.type == OrderType.sell) with
    | none => rfl
    | some c1 =>
        dsimp only [Option.bind, Option.map]
        unfold debt_check
        rw [if_pos hq]
  · obtain ⟨bp, mq, a, _, _, _, hceq⟩ :=
      place_orders_mem s snap market os ob cmds hpo c hc
    rcases hceq with h | h <;> subst h <;> rfl

/-- C6 witness: a single in-band sell order (2.5% from the feed) makes
the Reconciler place the missing buy side only and cancel nothing. -/
theorem C6_state_actions_witness :
    check_and_replace cSettings cSnapC6b m0 =
      some ([Cmd.buy m0 (39/20) (2000/39)], false) := by
  have htrig : trigger (5/2) cSettings.spread_percentage
      ⟨"o1", OrderType.sell, 41/20, 10⟩ 2 = false := by
    simp [trigger, cSettings]
    norm_num
    constructor <;> (rw [abs_of_nonneg] <;> norm_num)
  have h := (C6_state_actions cSettings cSnapC6b m0
    ⟨"o1", OrderType.sell, 41/20, 10⟩ 2 (5/2) rfl rfl rfl).2.1 rfl htrig
  rw [h]
  have hpo1 : place_orders cSettings cSnapC6b m0
      ((⟨"o1", OrderType.sell, 41/20, 10⟩ : Order).type == OrderType.buy)
      ((⟨"o1", OrderType.sell, 41/20, 10⟩ : Order).type == OrderType.sell) =
      some [Cmd.buy m0 (39/20) (2000/39)] := by
    show place_orders cSettings cSnapC6b m0 false true = _
    simp [place_orders, sell_side, buy_side, amounts?, asset_ids,
      resolve_base_price, base_price_of, buy_price_of, sell_price_of,
      lookupA, lookupM, memA, cSettings, cSnapC6b, m0]
    norm_num
  rw [hpo1]
  rfl

/-- C4 counterexample: the quote asset USD has no open debt position,
yet the Reconciler still places both orders for the market and then
issues the borrow — order placement is not deferred. -/
theorem C4_counterexample :
    memA cSnapC4.debt_positions "USD" = false
    ∧ check_and_replace cSettings cSnapC4 m0 =
        some ([Cmd.sell m0 (41/20) 10, Cmd.buy m0 (39/20) 10,
               Cmd.borrow (345/2) "USD" (5/2)], false) := by
  refine ⟨rfl, ?_⟩
  simp [check_and_replace, cSettings, cSnapC4, m0, lookupA, lookupM, memA,
    dictInsert, place_orders, sell_side, buy_side, debt_check, amounts?,
    asset_ids, resolve_base_price, base_price_of, buy_price_of, sell_price_of,
    get_debt_amounts, debt_step, get_total_bts, bts_total_collateral,
    bts_on_orderbook, order_list, trigger, cancel_orders]
  norm_num

/-- C4 (amended): whenever the quote asset has no open debt position and
the run ends without a replace, the command stream contains exactly one
borrow — for that quote asset, sized by the computed debt allocation, at
the configured ratio; order placement for the market is not suppressed
by the missing debt position. -/
theorem C4_borrow_no_gating (s : Settings) (snap : Snapshot) (market : Market)
    (cmds : List Cmd)
    (hnd : memA snap.debt_positions market.1 = false)
    (hcr : check_and_replace s snap market = some (cmds, false)) :
    ∃ da amount, get_debt_amounts s snap = some da
      ∧ lookupA da market.1 = some amount
      ∧ cmds.filter Cmd.isBorrow = [Cmd.borrow amount market.1 s.ratio] := by
  obtain ⟨pre, hpre, hdc⟩ := check_returns_false s snap market cmds hcr
  unfold debt_check at hdc
  rw [if_neg (by simp [hnd])] at hdc
  cases hda : get_debt_amounts s snap with
  | none => rw [hda] at hdc; cases hdc
  | some da =>
      rw [hda] at hdc
      simp only [Option.bind_eq_bind, Option.some_bind] at hdc
      cases hamt : lookupA da market.1 with
      | none => rw [hamt] at hdc; cases hdc
      | some amt =>
          rw [hamt] at hdc
          simp only [Option.bind_eq_bind, Option.some_bind] at hdc
          injection hdc with hdc
          have hcmds : cmds = pre ++ [Cmd.borrow amt market.1 s.ratio] :=
            (congrArg Prod.fst hdc).symm
          refine ⟨da, amt, rfl, hamt, ?_⟩
          rw [hcmds, List.filter_append]
          have hpref : pre.filter Cmd.isBorrow = [] := by
            rw [List.filter_eq_nil_iff]
            intro c hc
            have h2 := hpre c hc
            cases c <;> simp_all [Cmd.isOrderPlacement, Cmd.isBorrow]
          rw [hpref]
          rfl

/-- C4 witness: in the concrete snapshot the run's three commands carry
exactly one borrow, for USD at the configured ratio, sized by the
computed allocation. -/
theorem C4_borrow_no_gating_witness :
    ∃ da amount, get_debt_amounts cSettings cSnapC4 = some da
      ∧ lookupA da m0.1 = some amount
      ∧ ([Cmd.sell m0 (41/20) 10, Cmd.buy m0 (39/20) 10,
          Cmd.borrow (345/2) "USD" (5/2)] : List Cmd).filter Cmd.isBorrow =
          [Cmd.borrow amount m0.1 cSettings.ratio] :=
  C4_borrow_no_gating cSettings cSnapC4 m0 _ rfl (by
    simp [check_and_replace, cSettings, cSnapC4, m0, lookupA, lookupM, memA,
      dictInsert, place_orders, sell_side, buy_side, debt_check, amounts?,
      asset_ids, resolve_base_price, base_price_of, buy_price_of,
      sell_price_of, get_debt_amounts, debt_step, get_total_bts,
      bts_total_collateral, bts_on_orderbook, order_list, trigger,
      cancel_orders]
    norm_num)

end LiquidityBots
